import Mathlib

/-!
Verification of the conflict-detection and booking-lifecycle core of the
quick-room-booker repository, as a shallow embedding in Lean 4.

Strings of the JavaScript source are modelled as lists of characters
(`Str := List Char`), with the handful of string operations the source
relies on (lexicographic comparison, `toLowerCase`, `trim`, `split(":")`,
`parseInt` on digit fields, the two validation regexes) reimplemented as
structural recursions so that every definition evaluates inside the kernel.

Wall-clock inputs (the value of "today" at validation time) and the
success of each outbound e-mail are environment inputs of the HTTP
handlers; they enter the model as explicit parameters (`today : Str`,
`emailOk : Nat → Bool`).  Database auto-increment ids enter as explicit
`newId`/`nextId` parameters.  MySQL `TIME` column comparisons are modelled
on the parsed minute values of the stored `HH:MM` strings; a string that
does not parse as a time never overlaps anything, matching the JavaScript
`Invalid Date` comparison semantics of the front-end checker.

The source stores `duration` as fractional hours; the model keeps the
same quantity scaled by 60 (`durationMinutes : Int`), which the source
computes as `endMinutes - startMinutes` before dividing by 60.  No
specified property depends on the duration value.
-/

namespace QRB

/-- Strings of the JavaScript source, as lists of characters. -/
abbrev Str := List Char

/-- JavaScript `<` on two characters (code-unit comparison). -/
def chLt (a b : Char) : Bool := a.toNat < b.toNat

/-- JavaScript string `<`: lexicographic code-unit comparison. -/
def strLt : Str → Str → Bool
  | [], [] => false
  | [], _ :: _ => true
  | _ :: _, [] => false
  | a :: as, b :: bs => if a = b then strLt as bs else chLt a b

/-- JavaScript string `<=`. -/
def strLe (a b : Str) : Bool := !(strLt b a)

/-- numeric value of a decimal digit character. -/
def digitVal (c : Char) : Nat := c.toNat - 48

/-- value of a string of decimal digits, as JavaScript `parseInt` reads the
digit-only hour and minute fields of a validated time. -/
def parseNatDigits (cs : Str) : Nat := cs.foldl (fun a c => a * 10 + digitVal c) 0

/-- JavaScript `toLowerCase` and SQL `LOWER`, on the ASCII names the source
compares case-insensitively. -/
def toLowerStr (s : Str) : Str := s.map Char.toLower

/-- JavaScript `trim`: strip whitespace from both ends. -/
def trimStr (s : Str) : Str :=
  ((s.dropWhile Char.isWhitespace).reverse.dropWhile Char.isWhitespace).reverse

/-- JavaScript `padStart(2, "0")` on the hour field of `normalizeTime`. -/
def padTo2 (s : Str) : Str :=
  match s with
  | [] => ['0', '0']
  | [c] => ['0', c]
  | _ => s

/-- test of the date regex `^\d{4}-\d{2}-\d{2}$` used by the bulk import and
the booking edit endpoint. -/
def dateRegexTest (s : Str) : Bool :=
  match s with
  | [a, b, c, d, h1, e, f, h2, g, h] =>
      a.isDigit && b.isDigit && c.isDigit && d.isDigit && decide (h1 = '-') &&
      e.isDigit && f.isDigit && decide (h2 = '-') && g.isDigit && h.isDigit
  | _ => false

/-- test of the time regex `^([0-1]?[0-9]|2[0-3]):[0-5][0-9]$` used by the
bulk import and the booking edit endpoint. -/
def timeRegexTest (s : Str) : Bool :=
  match s with
  | [h1, c, m1, m2] =>
      h1.isDigit && decide (c = ':') &&
      decide ('0' ≤ m1) && decide (m1 ≤ '5') && m2.isDigit
  | [h1, h2, c, m1, m2] =>
      ((decide (h1 = '0') || decide (h1 = '1')) && h2.isDigit ||
        decide (h1 = '2') && decide ('0' ≤ h2) && decide (h2 ≤ '3')) &&
      decide (c = ':') &&
      decide ('0' ≤ m1) && decide (m1 ≤ '5') && m2.isDigit
  | _ => false

/-- time normalization of the bulk import: split on `:` and zero-pad a
single-digit hour field.  The source only reaches it on strings the time
regex accepted, which always split into exactly two fields. -/
def normalizeTime (t : Str) : Str :=
  match t.splitOn ':' with
  | [h, m] => padTo2 h ++ ':' :: m
  | _ => t

/-- minutes-from-midnight of an `HH:MM` string, as the source parses it
(`split(":")`, `parseInt` on each field, `hours * 60 + minutes`); `none`
when the string is not two digit fields separated by one colon.  Stored
times that do not parse never overlap anything in the model, matching the
front-end checker where an `Invalid Date` compares false. -/
def timeVal (s : Str) : Option Nat :=
  match s.splitOn ':' with
  | [h, m] =>
      if !h.isEmpty && h.all Char.isDigit && !m.isEmpty && m.all Char.isDigit then
        some (parseNatDigits h * 60 + parseNatDigits m)
      else none
  | _ => none

/-! ## The interval overlap primitive (spec section 4.1) and its call-site forms -/

/-- overlap formula of spec section 4.1: half-open intervals of one date,
`[s1,e1)` and `[s2,e2)` overlap iff `s1 < e2 AND s2 < e1`. -/
def overlapSpec (s1 e1 s2 e2 : Nat) : Bool := decide (s1 < e2) && decide (s2 < e1)

/-- conflict condition of the SQL call sites (booking edit, approval
override, bulk conflict details, resource usage): a stored row with window
`[bStart,bEnd)` collides with the request window `[qStart,qEnd)` when
`NOT (b.end_time <= qStart OR b.start_time >= qEnd)`. -/
def sqlConflict (bStart bEnd qStart qEnd : Nat) : Bool :=
  !(decide (bEnd ≤ qStart) || decide (bStart ≥ qEnd))

/-- overlap comparison of the front-end `checkAvailability`:
`start < bookingEnd && end > bookingStart`. -/
def jsOverlap (bStart bEnd qStart qEnd : Nat) : Bool :=
  decide (qStart < bEnd) && decide (qEnd > bStart)

theorem sqlConflict_eq_overlapSpec (bs be qs qe : Nat) :
    sqlConflict bs be qs qe = overlapSpec qs qe bs be := by
  simp [sqlConflict, overlapSpec, Bool.not_or, ← decide_not, Nat.not_le, Nat.not_lt]

theorem jsOverlap_eq_overlapSpec (bs be qs qe : Nat) :
    jsOverlap bs be qs qe = overlapSpec qs qe bs be := by
  simp [jsOverlap, overlapSpec, Bool.and_comm, Nat.lt_iff_add_one_le]

theorem overlapSpec_symm (s1 e1 s2 e2 : Nat) :
    overlapSpec s1 e1 s2 e2 = overlapSpec s2 e2 s1 e1 := by
  simp [overlapSpec, Bool.and_comm]

theorem overlapSpec_touching (s1 e1 e2 : Nat) : overlapSpec s1 e1 e1 e2 = false := by
  simp [overlapSpec]

/-! ## Data model -/

/-- booking status column. -/
inductive BStatus
  | pending
  | approved
  | rejected
deriving DecidableEq, Repr

structure User where
  id : Nat
  name : Str
  email : Option Str
deriving DecidableEq, Repr

structure Room where
  id : Nat
  name : Str
deriving DecidableEq, Repr

structure Resource where
  id : Nat
  name : Str
  total_quantity : Int
deriving DecidableEq, Repr

structure Booking where
  id : Nat
  user_id : Nat
  room_id : Nat
  date : Str
  start_time : Str
  end_time : Str
  durationMinutes : Int
  purpose : Str
  status : BStatus
  rejection_reason : Option Str
deriving DecidableEq, Repr

/-- row of the `booking_resources` join table. -/
structure BookingResource where
  booking_id : Nat
  resource_id : Nat
  quantity_requested : Int
deriving DecidableEq, Repr

/-- the persistent store. -/
structure DB where
  users : List User
  rooms : List Room
  bookings : List Booking
  resources : List Resource
  booking_resources : List BookingResource
deriving DecidableEq, Repr

/-- SQL conflict test lifted to the stored `HH:MM` strings. -/
def timesConflictSQL (bStart bEnd qStart qEnd : Str) : Bool :=
  match timeVal bStart, timeVal bEnd, timeVal qStart, timeVal qEnd with
  | some a, some b, some c, some d => sqlConflict a b c d
  | _, _, _, _ => false

/-- front-end overlap test lifted to the stored `HH:MM` strings. -/
def timesOverlapJS (bStart bEnd qStart qEnd : Str) : Bool :=
  match timeVal bStart, timeVal bEnd, timeVal qStart, timeVal qEnd with
  | some a, some b, some c, some d => jsOverlap a b c d
  | _, _, _, _ => false

theorem timesOverlapJS_eq_timesConflictSQL (bs be qs qe : Str) :
    timesOverlapJS bs be qs qe = timesConflictSQL bs be qs qe := by
  simp only [timesOverlapJS, timesConflictSQL]
  cases timeVal bs <;> cases timeVal be <;> cases timeVal qs <;> cases timeVal qe <;>
    simp [jsOverlap_eq_overlapSpec, sqlConflict_eq_overlapSpec]

/-! ## Availability checking -/

/-- availability checker of the source,
`checkAvailability(roomId, date, startTime, endTime, excludeBookingId?)`:
fetch the approved bookings of the room and date, minus the
excluded booking when one is given, and report available iff none overlaps
the proposed window. -/
def checkAvailability (bookings : List Booking) (roomId : Nat) (date : Str)
    (startTime endTime : Str) (excludeBookingId : Option Nat) : Bool :=
  let roomBookings := bookings.filter fun b =>
    decide (b.room_id = roomId) && decide (b.date = date) &&
    decide (b.status = BStatus.approved) &&
    (match excludeBookingId with
     | some ex => decide (b.id ≠ ex)
     | none => true)
  !(roomBookings.any fun b => timesOverlapJS b.start_time b.end_time startTime endTime)

/-- conflict `COUNT(*)` of the booking edit endpoint (PUT /api/bookings/:id
step 10): approved bookings of the room and date other than the edited one
whose window collides with the proposed window. -/
def editConflictCount (bookings : List Booking) (roomId : Nat) (date : Str)
    (selfId : Nat) (startTime endTime : Str) : Nat :=
  (bookings.filter fun b =>
    decide (b.room_id = roomId) && decide (b.date = date) &&
    decide (b.status = BStatus.approved) && decide (b.id ≠ selfId) &&
    timesConflictSQL b.start_time b.end_time startTime endTime).length

/-! ## Booking creation (POST /api/bookings)

The backend delegates availability to `checkAvailability` of its rooms
module, whose body is not among the staged source files; the spec
(section 4.2) and the front-end implementation of the same name specify
the identical algorithm, which `checkAvailability` above embeds. -/

structure ResourceReq where
  resourceId : Nat
  quantity : Int
deriving DecidableEq, Repr

structure CreateBody where
  roomId : Nat
  date : Str
  startTime : Str
  endTime : Str
  durationMinutes : Int
  purpose : Str
  resources : List ResourceReq
deriving DecidableEq, Repr

inductive CreateResult
  | missingFields
  | conflict
  | ok
deriving DecidableEq, Repr

/-- required-field presence test of booking creation; a JavaScript falsy
field (absent, empty string, zero id) fails it. -/
def createMissingFields (body : CreateBody) : Bool :=
  decide (body.roomId = 0) || body.date.isEmpty || body.startTime.isEmpty ||
    body.endTime.isEmpty || body.purpose.isEmpty

/-- resource rows the creation attaches: the loop skips a request with a
falsy id or quantity or `quantity < 1`, skips a resource id absent from the
resources table, and otherwise inserts `(bookingId, resourceId, quantity)`.
No comparison against the resource's total quantity is made. -/
def attachResourceRows (db : DB) (bookingId : Nat)
    (reqs : List ResourceReq) : List BookingResource :=
  reqs.filterMap fun r =>
    if r.resourceId = 0 ∨ r.quantity < 1 then none
    else if (db.resources.find? fun res => decide (res.id = r.resourceId)).isSome then
      some { booking_id := bookingId, resource_id := r.resourceId,
             quantity_requested := r.quantity }
    else none

/-- POST /api/bookings: presence check, hard availability gate (409 on
conflict), then insert the booking as `pending` and attach the valid
resource requests. -/
def createBooking (db : DB) (userId : Nat) (body : CreateBody) (newId : Nat) :
    DB × CreateResult :=
  if createMissingFields body then (db, .missingFields)
  else if !(checkAvailability db.bookings body.roomId body.date
              body.startTime body.endTime none) then (db, .conflict)
  else
    let booking : Booking :=
      { id := newId, user_id := userId, room_id := body.roomId, date := body.date,
        start_time := body.startTime, end_time := body.endTime,
        durationMinutes := body.durationMinutes, purpose := body.purpose,
        status := .pending, rejection_reason := none }
    ({ db with bookings := db.bookings ++ [booking],
               booking_resources :=
                 db.booking_resources ++ attachResourceRows db newId body.resources },
     .ok)

/-- validation a direct creation applies to a field set, with the
availability call's exclusion parameter exposed so the edit endpoint's
self-exclusion can be compared against it. -/
def createValidation (db : DB) (body : CreateBody) (exclude : Option Nat) : Bool :=
  !createMissingFields body &&
    checkAvailability db.bookings body.roomId body.date body.startTime body.endTime exclude

/-! ## Booking edit (PUT /api/bookings/:id) -/

structure EditBody where
  roomId : Option Nat
  date : Option Str
  startTime : Option Str
  endTime : Option Str
  durationMinutes : Option Int
  purpose : Option Str
deriving DecidableEq, Repr

inductive EditResult
  | notFound
  | notOwner
  | notPending
  | badDate
  | pastDate
  | badTime
  | timeOrder
  | noRoom
  | conflict
  | ok
deriving DecidableEq, Repr

/-- JavaScript `newValue || existingValue` merge on a numeric field: an
absent or falsy (zero) value falls back to the stored one. -/
def mergeNat (o : Option Nat) (d : Nat) : Nat :=
  match o with
  | some v => if v = 0 then d else v
  | none => d

/-- JavaScript `newValue || existingValue` merge on a string field: an
absent or empty value falls back to the stored one. -/
def mergeStr (o : Option Str) (d : Str) : Str :=
  match o with
  | some v => if v.isEmpty then d else v
  | none => d

/-- PUT /api/bookings/:id: requester-only edit of an own pending booking.
Fetch, ownership check, pending check, merge with the stored row, then
date format, date not in the past (the JavaScript midnight comparison is
modelled as lexicographic order of the `YYYY-MM-DD` strings against the
`today` parameter), time format for both times, raw-string `end <= start`
rejection, room existence, and the self-excluding conflict query; on
success the mutable columns are overwritten in place and the status is
untouched. -/
def editBooking (db : DB) (today : Str) (userId id : Nat) (body : EditBody) :
    DB × EditResult :=
  match db.bookings.find? fun b => decide (b.id = id) with
  | none => (db, .notFound)
  | some existing =>
    if existing.user_id ≠ userId then (db, .notOwner)
    else if existing.status ≠ BStatus.pending then (db, .notPending)
    else
      let uRoom := mergeNat body.roomId existing.room_id
      let uDate := mergeStr body.date existing.date
      let uStart := mergeStr body.startTime existing.start_time
      let uEnd := mergeStr body.endTime existing.end_time
      let uDur := body.durationMinutes.getD existing.durationMinutes
      let uPurpose := mergeStr body.purpose existing.purpose
      if !dateRegexTest uDate then (db, .badDate)
      else if strLt uDate today then (db, .pastDate)
      else if !timeRegexTest uStart then (db, .badTime)
      else if !timeRegexTest uEnd then (db, .badTime)
      else if strLe uEnd uStart then (db, .timeOrder)
      else if (db.rooms.find? fun r => decide (r.id = uRoom)).isNone then (db, .noRoom)
      else if 0 < editConflictCount db.bookings uRoom uDate id uStart uEnd then
        (db, .conflict)
      else
        ({ db with bookings := db.bookings.map fun b =>
            if b.id = id then
              { b with room_id := uRoom, date := uDate, start_time := uStart,
                       end_time := uEnd, durationMinutes := uDur, purpose := uPurpose }
            else b },
         .ok)

/-! ## Booking delete (DELETE /api/bookings/:id) -/

inductive DeleteResult
  | notFound
  | notOwner
  | notPending
  | ok
deriving DecidableEq, Repr

/-- DELETE /api/bookings/:id: requester-only delete of an own pending
booking. -/
def deleteBooking (db : DB) (userId id : Nat) : DB × DeleteResult :=
  match db.bookings.find? fun b => decide (b.id = id) with
  | none => (db, .notFound)
  | some existing =>
    if existing.user_id ≠ userId then (db, .notOwner)
    else if existing.status ≠ BStatus.pending then (db, .notPending)
    else ({ db with bookings := db.bookings.filter fun b => decide (b.id ≠ id) }, .ok)

/-! ## Admin status update with approval override (PUT /api/bookings/:id/status) -/

/-- entry of the displaced-bookings list the override paths return. -/
structure Displaced where
  id : Nat
  user_name : Str
  room_name : Str
deriving DecidableEq, Repr

/-- rejection reason the override cascade writes, naming the approving
admin and the winning booking's purpose, date and window. -/
def rejectionMessage (adminName purpose date startTime endTime : Str) : Str :=
  "Admin force-approved a conflicting booking by ".data ++ adminName ++
    " for ".data ++ purpose ++ " on ".data ++ date ++
    " from ".data ++ startTime ++ " to ".data ++ endTime

/-- conflict query of the approval override: approved bookings of the
subject's room and date, other than the subject, whose window collides with
the subject's window per the SQL condition; the query inner-joins the users
and rooms tables, so a row whose user or room is missing is not returned. -/
def cascadeTargets (db : DB) (subj : Booking) : List Booking :=
  db.bookings.filter fun b =>
    decide (b.room_id = subj.room_id) && decide (b.date = subj.date) &&
    decide (b.status = BStatus.approved) && decide (b.id ≠ subj.id) &&
    timesConflictSQL b.start_time b.end_time subj.start_time subj.end_time &&
    (db.users.find? fun u => decide (u.id = b.user_id)).isSome &&
    (db.rooms.find? fun r => decide (r.id = b.room_id)).isSome

inductive UpdCode
  | invalid
  | notFound
  | done
deriving DecidableEq, Repr

/-- status write of PUT /api/bookings/:id/status on the targeted row: on
rejection the rejection_reason column is set to the provided reason or
cleared, on approval only the status column changes. -/
def applyStatus (newStatus : BStatus) (reason : Option Str) (b : Booking) : Booking :=
  match newStatus with
  | .rejected => { b with status := .rejected, rejection_reason := reason }
  | _ => { b with status := .approved }

/-- per-row effect of the cascade's UPDATE loop: a row whose id is among
the conflicting bookings is set to rejected with the generated reason. -/
def cascadeApply (targets : List Booking) (msg : Str) (b : Booking) : Booking :=
  if targets.any fun t => decide (t.id = b.id) then
    { b with status := .rejected, rejection_reason := some msg }
  else b

/-- displaced-bookings list the cascade returns: one entry per conflicting
booking whose requester e-mail resolves and whose cancellation e-mail send
succeeds — the push sits inside the e-mail success branch. -/
def cascadeDisplaced (db : DB) (emailOk : Nat → Bool)
    (targets : List Booking) : List Displaced :=
  targets.filterMap fun t =>
    match db.users.find? fun u => decide (u.id = t.user_id) with
    | some u =>
      match u.email with
      | some _ =>
        if emailOk t.id then
          some { id := t.id, user_name := u.name,
                 room_name :=
                   ((db.rooms.find? fun r => decide (r.id = t.room_id)).map
                     Room.name).getD [] }
        else none
      | none => none
    | none => none

/-- PUT /api/bookings/:id/status: admin approval or rejection.  The update
is unconditional on the current status.  On approval the override cascade
runs: every conflicting approved booking of the same room and date is set
to `rejected` with the generated reason, and for each one whose requester
has an e-mail address and whose cancellation e-mail sends successfully, an
entry `(id, user_name, room_name)` is pushed onto the returned
`rejectedBookings` list; an e-mail failure is only logged.  If the joined
re-fetch of the subject finds no user or room row the handler answers 404
after the status write has already been committed and the cascade is
skipped. -/
def updateStatus (db : DB) (adminName : Str) (emailOk : Nat → Bool)
    (id : Nat) (newStatus : BStatus) (reason : Option Str) :
    DB × List Displaced × UpdCode :=
  if newStatus = BStatus.pending then (db, [], .invalid)
  else
    match db.bookings.find? fun b => decide (b.id = id) with
    | none => (db, [], .notFound)
    | some b0 =>
      let subj := applyStatus newStatus reason b0
      let bookings1 := db.bookings.map fun b =>
        if b.id = id then applyStatus newStatus reason b else b
      let db1 := { db with bookings := bookings1 }
      match db.users.find? fun u => decide (u.id = subj.user_id),
            db.rooms.find? fun r => decide (r.id = subj.room_id) with
      | some _, some _ =>
        if newStatus = BStatus.approved then
          let targets := cascadeTargets db1 subj
          let msg := rejectionMessage adminName subj.purpose subj.date
            subj.start_time subj.end_time
          ({ db1 with bookings := bookings1.map (cascadeApply targets msg) },
           cascadeDisplaced db emailOk targets, .done)
        else (db1, [], .done)
      | _, _ => (db1, [], .notFound)

/-! ## Bulk conflict resolution (POST /api/bookings/bulk/resolve, override branch) -/

/-- normalized candidate carried by a conflicted bulk row. -/
structure ResolveBooking where
  room_id : Nat
  date : Str
  start_time : Str
  end_time : Str
  durationMinutes : Int
  purpose : Str
deriving DecidableEq, Repr

/-- override branch of POST /api/bookings/bulk/resolve for one resolution:
insert the candidate as a fresh `approved` booking, then set the status of
every booking whose id appears in the request's `existing_bookings` payload
to `rejected` with the generated reason — the conflict set is taken from
the client payload, not recomputed against the store.  The subsequent
joined fetch of those ids drives the e-mails, and an entry is pushed onto
the returned `rejected` list only for a row whose user e-mail resolves and
whose e-mail sends successfully. -/
def resolveOverride (db : DB) (adminId : Nat) (adminName : Str)
    (emailOk : Nat → Bool) (newId : Nat) (rb : ResolveBooking)
    (existingIds : List Nat) : DB × List Displaced :=
  let newBooking : Booking :=
    { id := newId, user_id := adminId, room_id := rb.room_id, date := rb.date,
      start_time := rb.start_time, end_time := rb.end_time,
      durationMinutes := rb.durationMinutes, purpose := rb.purpose,
      status := .approved, rejection_reason := none }
  let msg := rejectionMessage adminName rb.purpose rb.date rb.start_time rb.end_time
  let bookings2 := (db.bookings ++ [newBooking]).map fun b =>
    if existingIds.contains b.id then
      { b with status := .rejected, rejection_reason := some msg }
    else b
  let displaced := bookings2.filterMap fun b =>
    if existingIds.contains b.id then
      match db.users.find? fun u => decide (u.id = b.user_id),
            db.rooms.find? fun r => decide (r.id = b.room_id) with
      | some u, some r =>
        match u.email with
        | some _ =>
          if emailOk b.id then
            some { id := b.id, user_name := u.name, room_name := r.name }
          else none
        | none => none
      | _, _ => none
    else none
  ({ db with bookings := bookings2 }, displaced)

/-! ## Bulk import (POST /api/bookings/bulk) -/

/-- candidate row of a bulk upload. -/
structure BulkRow where
  room_name : Str
  date : Str
  start_time : Str
  end_time : Str
  purpose : Str
deriving DecidableEq, Repr

structure CreatedEntry where
  id : Nat
  room_name : Str
  date : Str
  start_time : Str
  end_time : Str
  purpose : Str
deriving DecidableEq, Repr

structure ConflictEntry where
  room_name : Str
  room_id : Nat
  date : Str
  start_time : Str
  end_time : Str
  durationMinutes : Int
  purpose : Str
  existing_ids : List Nat
deriving DecidableEq, Repr

structure ErrorEntry where
  row_index : Nat
  reason : Str
deriving DecidableEq, Repr

/-- bucket a processed bulk row lands in. -/
inductive BulkOutcome
  | createdRow (e : CreatedEntry)
  | conflictRow (e : ConflictEntry)
  | errorRow (e : ErrorEntry)
deriving DecidableEq, Repr

/-- list of missing required-field names of a bulk row, in source order. -/
def missingFieldNames (row : BulkRow) : List Str :=
  (if row.room_name.isEmpty then ["room_name".data] else []) ++
  (if row.date.isEmpty then ["date".data] else []) ++
  (if row.start_time.isEmpty then ["start_time".data] else []) ++
  (if row.end_time.isEmpty then ["end_time".data] else []) ++
  (if row.purpose.isEmpty then ["purpose".data] else [])

/-- ids of the approved bookings the conflict-details query returns for a
conflicted bulk row (same room and date, SQL overlap condition, inner join
with the users table). -/
def bulkConflictIds (db : DB) (roomId : Nat) (date startN endN : Str) : List Nat :=
  (db.bookings.filter fun b =>
    decide (b.room_id = roomId) && decide (b.date = date) &&
    decide (b.status = BStatus.approved) &&
    timesConflictSQL b.start_time b.end_time startN endN &&
    (db.users.find? fun u => decide (u.id = b.user_id)).isSome).map Booking.id

/-- per-row pipeline of the bulk import, in source order: required fields,
case-insensitive room lookup on the trimmed name, date format, date not in
the past (lexicographic on `YYYY-MM-DD` against `today`), time format for
both times, normalization, end-after-start on the normalized strings,
duration, then the availability check; an available row is inserted
immediately with status `approved`.  Returns the store after the row, the
next fresh id, and the bucket the row landed in. -/
def bulkStep (today : Str) (adminId : Nat) (db : DB) (nextId idx : Nat)
    (row : BulkRow) : DB × Nat × BulkOutcome :=
  if row.room_name.isEmpty || row.date.isEmpty || row.start_time.isEmpty ||
      row.end_time.isEmpty || row.purpose.isEmpty then
    (db, nextId, .errorRow ⟨idx,
      "Missing required field: ".data ++
        List.intercalate ", ".data (missingFieldNames row)⟩)
  else
    match db.rooms.find? fun r =>
        decide (toLowerStr r.name = toLowerStr (trimStr row.room_name)) with
    | none => (db, nextId, .errorRow ⟨idx, "Room not found: ".data ++ row.room_name⟩)
    | some room =>
      if !dateRegexTest row.date then
        (db, nextId, .errorRow ⟨idx, "Invalid date format: ".data ++ row.date⟩)
      else if strLt row.date today then
        (db, nextId, .errorRow ⟨idx, "Date cannot be in the past".data⟩)
      else if !timeRegexTest row.start_time then
        (db, nextId, .errorRow ⟨idx, "Invalid time format: ".data ++ row.start_time⟩)
      else if !timeRegexTest row.end_time then
        (db, nextId, .errorRow ⟨idx, "Invalid time format: ".data ++ row.end_time⟩)
      else
        let startN := normalizeTime row.start_time
        let endN := normalizeTime row.end_time
        if strLe endN startN then
          (db, nextId, .errorRow ⟨idx, "End time must be after start time".data⟩)
        else
          let durM : Int := ((timeVal endN).getD 0 : Int) - ((timeVal startN).getD 0 : Int)
          if !(checkAvailability db.bookings room.id row.date startN endN none) then
            (db, nextId, .conflictRow
              ⟨room.name, room.id, row.date, startN, endN, durM, row.purpose,
               bulkConflictIds db room.id row.date startN endN⟩)
          else
            let booking : Booking :=
              { id := nextId, user_id := adminId, room_id := room.id,
                date := row.date, start_time := startN, end_time := endN,
                durationMinutes := durM, purpose := row.purpose,
                status := .approved, rejection_reason := none }
            ({ db with bookings := db.bookings ++ [booking] }, nextId + 1,
             .createdRow ⟨nextId, room.name, row.date, startN, endN, row.purpose⟩)

/-- loop of the bulk import: rows processed in order, threading the store
(a row created earlier in the batch is visible to later rows) and the fresh
id counter; one outcome per row. -/
def bulkProcess (today : Str) (adminId : Nat) (db : DB) (nextId idx : Nat) :
    List BulkRow → DB × List BulkOutcome
  | [] => (db, [])
  | row :: rest =>
    let (db1, nextId1, out) := bulkStep today adminId db nextId idx row
    let (db2, outs) := bulkProcess today adminId db1 nextId1 (idx + 1) rest
    (db2, out :: outs)

def createdOf (outs : List BulkOutcome) : List CreatedEntry :=
  outs.filterMap fun o => match o with | .createdRow e => some e | _ => none

def conflictsOf (outs : List BulkOutcome) : List ConflictEntry :=
  outs.filterMap fun o => match o with | .conflictRow e => some e | _ => none

def errorsOf (outs : List BulkOutcome) : List ErrorEntry :=
  outs.filterMap fun o => match o with | .errorRow e => some e | _ => none

structure BulkSummary where
  total : Nat
  created : Nat
  conflicts : Nat
  errors : Nat
deriving DecidableEq, Repr

structure BulkResponse where
  created : List CreatedEntry
  conflicts : List ConflictEntry
  errors : List ErrorEntry
  summary : BulkSummary
deriving DecidableEq, Repr

/-- POST /api/bookings/bulk: process every row and return the categorized
buckets with the summary counts; `summary.total` is the length of the
input array. -/
def bulkImport (today : Str) (adminId : Nat) (db : DB) (nextId : Nat)
    (rows : List BulkRow) : DB × BulkResponse :=
  let (db2, outs) := bulkProcess today adminId db nextId 0 rows
  let created := createdOf outs
  let conflicts := conflictsOf outs
  let errors := errorsOf outs
  (db2, { created := created, conflicts := conflicts, errors := errors,
          summary := { total := rows.length, created := created.length,
                       conflicts := conflicts.length, errors := errors.length } })

/-! ## Visible bookings (GET /api/bookings/visible) -/

/-- row shape of the visible-bookings response: an own booking is returned
in full (all joined columns), another user's approved booking is returned
with the personal columns replaced and without the id columns of its user
and room. -/
structure VisibleEntry where
  id : Nat
  user_id : Option Nat
  room_id : Option Nat
  user_name : Str
  room_name : Str
  date : Str
  start_time : Str
  end_time : Str
  durationMinutes : Int
  status : Str
  purpose : Str
deriving DecidableEq, Repr

def statusText : BStatus → Str
  | .pending => "pending".data
  | .approved => "approved".data
  | .rejected => "rejected".data

/-- full joined row returned for the caller's own booking. -/
def fullEntry (b : Booking) (u : User) (r : Room) : VisibleEntry :=
  { id := b.id, user_id := some b.user_id, room_id := some b.room_id,
    user_name := u.name, room_name := r.name, date := b.date,
    start_time := b.start_time, end_time := b.end_time,
    durationMinutes := b.durationMinutes, status := statusText b.status,
    purpose := b.purpose }

/-- anonymized row returned for another user's approved booking. -/
def maskedEntry (b : Booking) (r : Room) : VisibleEntry :=
  { id := b.id, user_id := none, room_id := none,
    user_name := "Booked".data, room_name := r.name, date := b.date,
    start_time := b.start_time, end_time := b.end_time,
    durationMinutes := b.durationMinutes, status := "booked".data,
    purpose := "Not available".data }

/-- GET /api/bookings/visible: the joined listing (a booking whose user or
room row is missing is dropped by the inner join), mapped to full rows for
the caller's own bookings, anonymized rows for other users' approved
bookings, and nothing for other users' pending or rejected bookings. -/
def visibleBookings (db : DB) (callerId : Nat) : List VisibleEntry :=
  db.bookings.filterMap fun b =>
    match db.users.find? fun u => decide (u.id = b.user_id),
          db.rooms.find? fun r => decide (r.id = b.room_id) with
    | some u, some r =>
      if b.user_id = callerId then some (fullEntry b u r)
      else if b.status = BStatus.approved then some (maskedEntry b r)
      else none
    | _, _ => none

/-! ## Resource capacity check (POST /api/resources/check-availability) -/

/-- per-resource report row of the capacity check. -/
structure ResourceReport where
  resourceId : Nat
  resourceName : Str
  requested : Int
  available : Int
  sufficient : Bool
deriving DecidableEq, Repr

/-- committed quantity of a resource over a window: sum of
`quantity_requested` across the reservation rows whose parent booking is
approved, on the date, and SQL-overlaps the window (`SUM` of no rows reads
back as 0). -/
def usedQuantity (db : DB) (resourceId : Nat) (date startTime endTime : Str) : Int :=
  ((db.booking_resources.filter fun br =>
      decide (br.resource_id = resourceId) &&
      match db.bookings.find? fun b => decide (b.id = br.booking_id) with
      | some b =>
        decide (b.date = date) && decide (b.status = BStatus.approved) &&
        timesConflictSQL b.start_time b.end_time startTime endTime
      | none => false).map BookingResource.quantity_requested).sum

/-- loop of POST /api/resources/check-availability: a request with a falsy
id or quantity is skipped, a resource id absent from the resources table is
skipped, and each processed request contributes its report row and its
`sufficient` flag to the conjunction; skipped requests leave both the
report and the overall flag untouched. -/
def checkResourceLoop (db : DB) (date startTime endTime : Str) :
    List ResourceReq → Bool × List ResourceReport
  | [] => (true, [])
  | req :: rest =>
    if req.resourceId = 0 ∨ req.quantity = 0 then
      checkResourceLoop db date startTime endTime rest
    else
      match db.resources.find? fun r => decide (r.id = req.resourceId) with
      | none => checkResourceLoop db date startTime endTime rest
      | some rinfo =>
        let used := usedQuantity db req.resourceId date startTime endTime
        let avail := rinfo.total_quantity - used
        let suff := decide (req.quantity ≤ avail)
        let rest' := checkResourceLoop db date startTime endTime rest
        (suff && rest'.1,
         ⟨req.resourceId, rinfo.name, req.quantity, avail, suff⟩ :: rest'.2)

/-- POST /api/resources/check-availability: overall flag and per-resource
reports. -/
def checkResourceAvailability (db : DB) (reqs : List ResourceReq)
    (date startTime endTime : Str) : Bool × List ResourceReport :=
  checkResourceLoop db date startTime endTime reqs

/-- Modelled from the spec: the overall flag as claim C5 words it — the
conjunction of `sufficient` over ALL requested resources, a requested
resource that does not exist in the resources table counting as not
sufficient since it has no quantity to supply. -/
def specOverallAvailable (db : DB) (reqs : List ResourceReq)
    (date startTime endTime : Str) : Bool :=
  reqs.all fun req =>
    match db.resources.find? fun r => decide (r.id = req.resourceId) with
    | some rinfo =>
      decide (req.quantity ≤ rinfo.total_quantity -
        usedQuantity db req.resourceId date startTime endTime)
    | none => false

/-! ## Spec-side vocabulary and well-formedness -/

/-- conflict set of the override cascade in the claim's vocabulary: an
approved booking of the subject's room and date, other than the subject,
whose parsed window overlaps the subject's parsed window per the spec
formula of section 4.1. -/
def conflictCond (subj b : Booking) : Bool :=
  decide (b.room_id = subj.room_id) && decide (b.date = subj.date) &&
  decide (b.status = BStatus.approved) && decide (b.id ≠ subj.id) &&
  (match timeVal subj.start_time, timeVal subj.end_time,
         timeVal b.start_time, timeVal b.end_time with
   | some s1, some e1, some s2, some e2 => overlapSpec s1 e1 s2 e2
   | _, _, _, _ => false)

/-- referential well-formedness of a store: booking ids are pairwise
distinct (they are an auto-increment primary key), every booking's user and
room rows exist (foreign keys), and every stored time parses as `HH:MM`. -/
def dbWF (db : DB) : Bool :=
  decide (db.bookings.map Booking.id).Nodup &&
  db.bookings.all fun b =>
    (db.users.find? fun u => decide (u.id = b.user_id)).isSome &&
    (db.rooms.find? fun r => decide (r.id = b.room_id)).isSome &&
    (timeVal b.start_time).isSome && (timeVal b.end_time).isSome

/-! ## Concrete stores used by the counterexamples and witnesses -/

/-- store with a single approved booking, Conference Room A on 2025-03-10
from 09:00 to 10:00 (the concrete scenario of spec section 8). -/
def oneBookingDB : DB :=
  { users := [⟨1, "Alice".data, some "alice@example.com".data⟩],
    rooms := [⟨1, "Conference Room A".data⟩],
    bookings := [⟨1, 1, 1, "2025-03-10".data, "09:00".data, "10:00".data, 60,
      "Standup".data, .approved, none⟩],
    resources := [],
    booking_resources := [] }

/-- store with one rejected booking. -/
def rejectedDB : DB :=
  { users := [⟨1, "Alice".data, some "alice@example.com".data⟩],
    rooms := [⟨1, "Conference Room A".data⟩],
    bookings := [⟨1, 1, 1, "2025-03-10".data, "09:00".data, "10:00".data, 60,
      "Seminar".data, .rejected, some "busy".data⟩],
    resources := [],
    booking_resources := [] }

/-- store with a pending subject (id 1, 09:30 to 10:30) and a conflicting
approved booking (id 2, 09:00 to 10:00) whose requester has no e-mail
address. -/
def noEmailDB : DB :=
  { users := [⟨1, "Alice".data, some "alice@example.com".data⟩,
              ⟨2, "Bob".data, none⟩],
    rooms := [⟨1, "Conference Room A".data⟩],
    bookings := [⟨1, 1, 1, "2025-03-10".data, "09:30".data, "10:30".data, 60,
      "Workshop".data, .pending, none⟩,
      ⟨2, 2, 1, "2025-03-10".data, "09:00".data, "10:00".data, 60,
        "Review".data, .approved, none⟩],
    resources := [],
    booking_resources := [] }

/-- store with a pending booking of Alice (id 1, 09:00 to 10:00), used by
the edit-validation claims. -/
def pendingDB : DB :=
  { users := [⟨1, "Alice".data, some "alice@example.com".data⟩],
    rooms := [⟨1, "Conference Room A".data⟩],
    bookings := [⟨1, 1, 1, "2026-01-01".data, "09:00".data, "10:00".data, 60,
      "Study".data, .pending, none⟩],
    resources := [],
    booking_resources := [] }

/-- store holding one resource (5 projectors) and one approved booking that
reserves 3 of them from 09:00 to 10:00 on 2025-03-10. -/
def resourceDB : DB :=
  { users := [⟨1, "Alice".data, some "alice@example.com".data⟩],
    rooms := [⟨1, "Conference Room A".data⟩],
    bookings := [⟨1, 1, 1, "2025-03-10".data, "09:00".data, "10:00".data, 60,
      "Standup".data, .approved, none⟩],
    resources := [⟨1, "Projector".data, 5⟩],
    booking_resources := [⟨1, 1, 3⟩] }

/-! ## Helper lemmas -/

theorem timesConflictSQL_of_timeVal {bs be qs qe : Str} {a b c d : Nat}
    (h1 : timeVal bs = some a) (h2 : timeVal be = some b)
    (h3 : timeVal qs = some c) (h4 : timeVal qe = some d) :
    timesConflictSQL bs be qs qe = overlapSpec c d a b := by
  simp [timesConflictSQL, h1, h2, h3, h4, sqlConflict_eq_overlapSpec]

theorem bulkProcess_length (today : Str) (adminId : Nat) :
    ∀ (rows : List BulkRow) (db : DB) (nextId idx : Nat),
      (bulkProcess today adminId db nextId idx rows).2.length = rows.length
  | [], _, _, _ => rfl
  | row :: rest, db, nextId, idx => by
    simp only [bulkProcess]
    rcases h : bulkStep today adminId db nextId idx row with ⟨db1, n1, out⟩
    rcases h2 : bulkProcess today adminId db1 n1 (idx + 1) rest with ⟨db2, outs⟩
    have ih := bulkProcess_length today adminId rest db1 n1 (idx + 1)
    rw [h2] at ih
    simpa using ih

theorem bulkOutcomes_partition :
    ∀ l : List BulkOutcome,
      (createdOf l).length + (conflictsOf l).length + (errorsOf l).length = l.length
  | [] => rfl
  | o :: t => by
    have ih := bulkOutcomes_partition t
    cases o <;>
      simp only [createdOf, conflictsOf, errorsOf, List.filterMap_cons,
        List.length_cons] at * <;>
      omega

theorem filter_exclude_comm (l : List Booking) (A : Booking → Bool) (xid : Nat) :
    l.filter (fun b => A b && decide (b.id ≠ xid)) =
      (l.filter fun b => decide (b.id ≠ xid)).filter (fun b => A b && true) := by
  rw [List.filter_filter]
  apply List.filter_congr
  intro b _
  cases hA : A b <;> simp [hA]

/-! ## C1 -/

/-- C1: every overlap check the program performs reduces to the half-open
test: the SQL conflict condition and the front-end comparison each equal
the spec formula `s1 < e2 AND s2 < e1`, the formula is symmetric, a
booking ending exactly when another starts does not conflict, and both
lifted string-level tests agree with each other and, on parsed times, with
the formula. -/
theorem c1_overlap_halfopen :
    (∀ s1 e1 s2 e2 : Nat,
      overlapSpec s1 e1 s2 e2 = (decide (s1 < e2) && decide (s2 < e1)) ∧
      sqlConflict s2 e2 s1 e1 = overlapSpec s1 e1 s2 e2 ∧
      jsOverlap s2 e2 s1 e1 = overlapSpec s1 e1 s2 e2 ∧
      overlapSpec s1 e1 s2 e2 = overlapSpec s2 e2 s1 e1 ∧
      overlapSpec s1 e1 e1 e2 = false) ∧
    (∀ bs be qs qe : Str,
      timesOverlapJS bs be qs qe = timesConflictSQL bs be qs qe) ∧
    (∀ (bs be qs qe : Str) (a b c d : Nat),
      timeVal bs = some a → timeVal be = some b → timeVal qs = some c →
        timeVal qe = some d →
        timesConflictSQL bs be qs qe = overlapSpec c d a b) := by
  refine ⟨?_, timesOverlapJS_eq_timesConflictSQL, ?_⟩
  · intro s1 e1 s2 e2
    exact ⟨rfl, sqlConflict_eq_overlapSpec s2 e2 s1 e1,
      jsOverlap_eq_overlapSpec s2 e2 s1 e1, overlapSpec_symm s1 e1 s2 e2,
      overlapSpec_touching s1 e1 e2⟩
  · intro bs be qs qe a b c d h1 h2 h3 h4
    exact timesConflictSQL_of_timeVal h1 h2 h3 h4

/-! ## C4 -/

/-- C4: the bulk import partitions its input — the loop yields exactly one
outcome per input row, each outcome is exactly one of created, conflict or
error, and `summary.total` equals the input length and equals
`len(created) + len(conflicts) + len(errors)`; each summary count equals
its bucket's length. -/
theorem c4_bulk_partition (today : Str) (adminId : Nat) (db : DB) (nextId : Nat)
    (rows : List BulkRow) :
    (bulkImport today adminId db nextId rows).2.summary.total = rows.length ∧
    (bulkProcess today adminId db nextId 0 rows).2.length = rows.length ∧
    (bulkImport today adminId db nextId rows).2.summary.total =
      (bulkImport today adminId db nextId rows).2.created.length +
      (bulkImport today adminId db nextId rows).2.conflicts.length +
      (bulkImport today adminId db nextId rows).2.errors.length ∧
    (bulkImport today adminId db nextId rows).2.summary.created =
      (bulkImport today adminId db nextId rows).2.created.length ∧
    (bulkImport today adminId db nextId rows).2.summary.conflicts =
      (bulkImport today adminId db nextId rows).2.conflicts.length ∧
    (bulkImport today adminId db nextId rows).2.summary.errors =
      (bulkImport today adminId db nextId rows).2.errors.length := by
  rcases h : bulkProcess today adminId db nextId 0 rows with ⟨db2, outs⟩
  have hlen : outs.length = rows.length := by
    have hl := bulkProcess_length today adminId rows db nextId 0
    rw [h] at hl
    simpa using hl
  have hpart := bulkOutcomes_partition outs
  have h2 : (bulkImport today adminId db nextId rows).2 =
      { created := createdOf outs, conflicts := conflictsOf outs,
        errors := errorsOf outs,
        summary := ⟨rows.length, (createdOf outs).length,
          (conflictsOf outs).length, (errorsOf outs).length⟩ } := by
    simp [bulkImport, h]
  refine ⟨by simp [h2], by simpa using hlen, ?_, by simp [h2],
    by simp [h2], by simp [h2]⟩
  simp only [h2]
  omega

/-! ## C7 -/

/-- C7 (amended): the excluded booking's own row never influences the
availability check — checking with `excludeBookingId = X` equals checking
the store with X's row deleted — and the check reports available exactly
when no other approved booking of the room and date overlaps the window.
The original claim's unconditional `available = true` fails when a second
approved overlapping booking exists (see the counterexample). -/
theorem c7_availability_excludes_self :
    (∀ (bookings : List Booking) (rid : Nat) (date s e : Str) (xid : Nat),
      checkAvailability bookings rid date s e (some xid) =
        checkAvailability (bookings.filter fun b => decide (b.id ≠ xid))
          rid date s e none) ∧
    (∀ (bookings : List Booking) (rid : Nat) (date s e : Str) (xid : Nat),
      checkAvailability bookings rid date s e (some xid) = true ↔
        ∀ b ∈ bookings, b.id ≠ xid → b.room_id = rid → b.date = date →
          b.status = BStatus.approved →
          timesOverlapJS b.start_time b.end_time s e = false) := by
  constructor
  · intro bookings rid date s e xid
    simp only [checkAvailability]
    rw [filter_exclude_comm]
  · intro bookings rid date s e xid
    simp only [checkAvailability, Bool.not_eq_true', List.any_eq_false,
      List.mem_filter, Bool.and_eq_true, decide_eq_true_eq]
    constructor
    · intro h b hb hne hrid hdate hst
      simpa using h b ⟨hb, ⟨⟨hrid, hdate⟩, hst⟩, hne⟩
    · rintro h b ⟨hb, ⟨⟨hrid, hdate⟩, hst⟩, hne⟩
      simpa using h b hb hne hrid hdate hst

/-- C7 counterexample: a store holding the booking X (Conference Room A,
2025-03-10, 09:00 to 10:00, approved) together with a second approved
booking of the same slot; checking X's own room, date and window with X
excluded reports available = false, refuting the claim's unconditional
`available = true`. -/
theorem c7_counterexample :
    (⟨1, 1, 1, "2025-03-10".data, "09:00".data, "10:00".data, 60,
      "Standup".data, .approved, none⟩ : Booking) ∈
      ([⟨1, 1, 1, "2025-03-10".data, "09:00".data, "10:00".data, 60,
          "Standup".data, .approved, none⟩,
        ⟨2, 2, 1, "2025-03-10".data, "09:00".data, "10:00".data, 60,
          "Review".data, .approved, none⟩] : List Booking) ∧
    checkAvailability
      [⟨1, 1, 1, "2025-03-10".data, "09:00".data, "10:00".data, 60,
          "Standup".data, .approved, none⟩,
        ⟨2, 2, 1, "2025-03-10".data, "09:00".data, "10:00".data, 60,
          "Review".data, .approved, none⟩]
      1 "2025-03-10".data "09:00".data "10:00".data (some 1) = false := by
  exact ⟨by decide, by decide⟩

/-! ## C9 -/

/-- C9 (amended): every resource-reservation row booking creation adds
satisfies `quantity_requested ≥ 1` and references a resource that exists in
the resources table at creation time; the upper bound
`quantity_requested ≤ total_quantity` of the original claim is NOT enforced
(see the counterexample). -/
theorem c9_reservation_lower_bound (db : DB) (uid : Nat) (body : CreateBody)
    (newId : Nat) (r : BookingResource)
    (hr : r ∈ (createBooking db uid body newId).1.booking_resources) :
    r ∈ db.booking_resources ∨
      (r.booking_id = newId ∧ 1 ≤ r.quantity_requested ∧
        (db.resources.find? fun res => decide (res.id = r.resource_id)).isSome
          = true) := by
  unfold createBooking at hr
  split at hr
  · exact Or.inl hr
  · split at hr
    · exact Or.inl hr
    · simp only [List.mem_append] at hr
      rcases hr with hr | hr
      · exact Or.inl hr
      · right
        unfold attachResourceRows at hr
        rw [List.mem_filterMap] at hr
        obtain ⟨req, _, hsome⟩ := hr
        split at hsome
        next => exact absurd hsome (by simp)
        next hskip =>
          split at hsome
          next hfound =>
            have hrq := Option.some_injective _ hsome
            have hq : ¬ (req.quantity < 1) := fun hlt => hskip (Or.inr hlt)
            refine ⟨?_, ?_, ?_⟩ <;> rw [← hrq]
            · show (1 : Int) ≤ req.quantity
              omega
            · exact hfound
          next => exact absurd hsome (by simp)

/-- C9 witness: creating a booking in the resource store with a request for
2 of the 5 projectors yields a reservation row, and the row satisfies the
lower bound and references an existing resource. -/
theorem c9_witness :
    ((⟨10, 1, 2⟩ : BookingResource) ∈ (createBooking resourceDB 1
        ⟨1, "2025-03-11".data, "09:00".data, "10:00".data, 60, "Demo".data,
          [⟨1, 2⟩]⟩ 10).1.booking_resources) ∧
    ((⟨10, 1, 2⟩ : BookingResource) ∈ resourceDB.booking_resources ∨
      ((10 : Nat) = 10 ∧ (1 : Int) ≤ 2 ∧
        (resourceDB.resources.find? fun res => decide (res.id = 1)).isSome
          = true)) := by
  refine ⟨by decide, ?_⟩
  exact c9_reservation_lower_bound resourceDB 1
    ⟨1, "2025-03-11".data, "09:00".data, "10:00".data, 60, "Demo".data,
      [⟨1, 2⟩]⟩ 10 ⟨10, 1, 2⟩ (by decide)

/-- C9 counterexample: the projector resource has total quantity 5, yet
creating a booking that requests 6 projectors inserts the reservation row
with quantity 6 — the claimed upper bound `quantity ≤ total_quantity` is
violated by a row the system creates. -/
theorem c9_counterexample :
    (⟨10, 1, 6⟩ : BookingResource) ∈ (createBooking resourceDB 1
        ⟨1, "2025-03-11".data, "09:00".data, "10:00".data, 60, "Demo".data,
          [⟨1, 6⟩]⟩ 10).1.booking_resources ∧
    resourceDB.resources.find? (fun res => decide (res.id = 1)) =
      some ⟨1, "Projector".data, 5⟩ ∧
    ¬ ((6 : Int) ≤ 5) := by
  exact ⟨by decide, by decide, by decide⟩

/-! ## C10 -/

/-- C10: the visible-bookings listing returns, for every caller, exactly
the caller's own bookings in full, other users' approved bookings with
purpose replaced by "Not available", user_name by "Booked" and status by
"booked" (and no user or room id columns), and omits other users' pending
and rejected bookings entirely; consequently every returned row that is
not the caller's own carries only the masked personal fields. -/
theorem c10_visible_anonymization :
    ∀ (db : DB) (callerId : Nat),
      (∀ e, e ∈ visibleBookings db callerId ↔
        ∃ b ∈ db.bookings, ∃ u r,
          db.users.find? (fun v => decide (v.id = b.user_id)) = some u ∧
          db.rooms.find? (fun v => decide (v.id = b.room_id)) = some r ∧
          ((b.user_id = callerId ∧ e = fullEntry b u r) ∨
            (b.user_id ≠ callerId ∧ b.status = BStatus.approved ∧
              e = maskedEntry b r))) ∧
      (∀ e, e ∈ visibleBookings db callerId → e.user_id ≠ some callerId →
        e.purpose = "Not available".data ∧ e.user_name = "Booked".data ∧
          e.status = "booked".data ∧ e.user_id = none) := by
  intro db callerId
  have hchar : ∀ e, e ∈ visibleBookings db callerId ↔
      ∃ b ∈ db.bookings, ∃ u r,
        db.users.find? (fun v => decide (v.id = b.user_id)) = some u ∧
        db.rooms.find? (fun v => decide (v.id = b.room_id)) = some r ∧
        ((b.user_id = callerId ∧ e = fullEntry b u r) ∨
          (b.user_id ≠ callerId ∧ b.status = BStatus.approved ∧
            e = maskedEntry b r)) := by
    intro e
    simp only [visibleBookings, List.mem_filterMap]
    constructor
    · rintro ⟨b, hb, hf⟩
      split at hf
      next u r hu hr =>
        split at hf
        next hown =>
          exact ⟨b, hb, u, r, hu, hr, Or.inl ⟨hown,
            (Option.some_injective _ hf).symm⟩⟩
        next hown =>
          split at hf
          next happ =>
            exact ⟨b, hb, u, r, hu, hr, Or.inr ⟨hown, happ,
              (Option.some_injective _ hf).symm⟩⟩
          next => exact absurd hf (by simp)
      next => exact absurd hf (by simp)
    · rintro ⟨b, hb, u, r, hu, hr, hcase⟩
      refine ⟨b, hb, ?_⟩
      rcases hcase with ⟨hown, rfl⟩ | ⟨hne, happ, rfl⟩
      · rw [hu, hr]
        simp [hown]
      · rw [hu, hr]
        simp [hne, happ]
  refine ⟨hchar, ?_⟩
  intro e he hne
  rcases (hchar e).1 he with ⟨b, _, u, r, _, _, hcase⟩
  rcases hcase with ⟨hown, rfl⟩ | ⟨_, _, rfl⟩
  · exact absurd (by simp [fullEntry, hown]) hne
  · exact ⟨rfl, rfl, rfl, rfl⟩

/-! ## C5 -/

/-- per-resource report row as claim C5 words it: used quantity summed over
overlapping approved reservations, available = total − used, sufficient =
requested ≤ available.  The `none` branch is never reached under the
amended claim's hypothesis that every requested resource exists. -/
def reportFor (db : DB) (date s e : Str) (req : ResourceReq) : ResourceReport :=
  match db.resources.find? fun r => decide (r.id = req.resourceId) with
  | some rinfo =>
    ⟨req.resourceId, rinfo.name, req.quantity,
     rinfo.total_quantity - usedQuantity db req.resourceId date s e,
     decide (req.quantity ≤
       rinfo.total_quantity - usedQuantity db req.resourceId date s e)⟩
  | none => ⟨req.resourceId, [], req.quantity, 0, false⟩

theorem specOverallAvailable_eq (db : DB) (date s e : Str) :
    ∀ reqs : List ResourceReq,
      specOverallAvailable db reqs date s e =
        (reqs.all fun req => (reportFor db date s e req).sufficient)
  | [] => rfl
  | req :: rest => by
    have ih := specOverallAvailable_eq db date s e rest
    simp only [specOverallAvailable, List.all_cons] at *
    rw [ih]
    congr 1
    cases hre : db.resources.find? fun r => decide (r.id = req.resourceId) <;>
      simp [reportFor, hre]

theorem checkResourceLoop_spec (db : DB) (date s e : Str) :
    ∀ reqs : List ResourceReq,
      (∀ req ∈ reqs, req.resourceId ≠ 0 ∧ req.quantity ≠ 0 ∧
        (db.resources.find? fun r => decide (r.id = req.resourceId)).isSome
          = true) →
      (checkResourceLoop db date s e reqs).1 =
        (reqs.all fun req => (reportFor db date s e req).sufficient) ∧
      (checkResourceLoop db date s e reqs).2 = reqs.map (reportFor db date s e)
  | [], _ => ⟨rfl, rfl⟩
  | req :: rest, h => by
    obtain ⟨hid, hq, hfound⟩ := h req (by simp)
    obtain ⟨ha, hb⟩ :=
      checkResourceLoop_spec db date s e rest fun r hr => h r (by simp [hr])
    obtain ⟨rinfo, hre⟩ := Option.isSome_iff_exists.mp hfound
    have hrf : reportFor db date s e req =
        ⟨req.resourceId, rinfo.name, req.quantity,
          rinfo.total_quantity - usedQuantity db req.resourceId date s e,
          decide (req.quantity ≤
            rinfo.total_quantity - usedQuantity db req.resourceId date s e)⟩ := by
      simp [reportFor, hre]
    simp only [checkResourceLoop]
    rw [if_neg (by tauto), hre]
    simp only [List.all_cons, List.map_cons, hrf]
    exact ⟨by rw [ha], by rw [hb]⟩

/-- C5 (amended): for every request list whose entries all have a non-falsy
id and quantity and reference an existing resource, the per-resource
reports are exactly the used/available/sufficient formulas of the claim and
the overall flag is the conjunction of `sufficient` over those requests.
The original claim's parenthetical fails: a requested resource that does
not exist (or has a falsy quantity) is skipped — it produces no report row
and does not affect the overall flag (see the counterexample). -/
theorem c5_capacity_check (db : DB) (date s e : Str) (reqs : List ResourceReq)
    (h : ∀ req ∈ reqs, req.resourceId ≠ 0 ∧ req.quantity ≠ 0 ∧
      (db.resources.find? fun r => decide (r.id = req.resourceId)).isSome = true) :
    (checkResourceAvailability db reqs date s e).1 =
      specOverallAvailable db reqs date s e ∧
    (checkResourceAvailability db reqs date s e).2 =
      reqs.map (reportFor db date s e) ∧
    specOverallAvailable db reqs date s e =
      (reqs.all fun req => (reportFor db date s e req).sufficient) := by
  obtain ⟨ha, hb⟩ := checkResourceLoop_spec db date s e reqs h
  have he := specOverallAvailable_eq db date s e reqs
  refine ⟨?_, hb, he⟩
  show (checkResourceLoop db date s e reqs).1 = _
  rw [ha, he]

/-- C5 witness: requesting 3 of the 5 projectors over a window overlapping
the approved reservation of 3 leaves 2 available, so the request is not
sufficient; the report and overall flag follow the claimed formulas. -/
theorem c5_witness :
    (checkResourceAvailability resourceDB [⟨1, 3⟩] "2025-03-10".data
      "09:30".data "10:30".data).1 =
      specOverallAvailable resourceDB [⟨1, 3⟩] "2025-03-10".data
        "09:30".data "10:30".data ∧
    (checkResourceAvailability resourceDB [⟨1, 3⟩] "2025-03-10".data
      "09:30".data "10:30".data).2 =
      [⟨1, 3⟩].map (reportFor resourceDB "2025-03-10".data "09:30".data
        "10:30".data) ∧
    specOverallAvailable resourceDB [⟨1, 3⟩] "2025-03-10".data "09:30".data
      "10:30".data =
      ([⟨1, 3⟩].all fun req =>
        (reportFor resourceDB "2025-03-10".data "09:30".data "10:30".data
          req).sufficient) :=
  c5_capacity_check resourceDB "2025-03-10".data "09:30".data "10:30".data
    [⟨1, 3⟩] (by decide)

/-- C5 counterexample: requesting 3 of resource id 7, which does not exist,
yields overall available = true with an empty report — the request is
skipped instead of entering the conjunction over ALL requested resources as
the claim states. -/
theorem c5_counterexample :
    (checkResourceAvailability resourceDB [⟨7, 3⟩] "2025-03-10".data
      "09:00".data "10:00".data).1 = true ∧
    (checkResourceAvailability resourceDB [⟨7, 3⟩] "2025-03-10".data
      "09:00".data "10:00".data).2 = [] ∧
    specOverallAvailable resourceDB [⟨7, 3⟩] "2025-03-10".data "09:00".data
      "10:00".data = false ∧
    (resourceDB.resources.find? fun r => decide (r.id = 7)) = none := by
  exact ⟨by decide, by decide, by decide, by decide⟩

/-! ## C8 -/

theorem dateRegexTest_not_empty {s : Str} (h : dateRegexTest s = true) :
    s.isEmpty = false := by
  cases s with
  | nil => exact absurd h (by decide)
  | cons a t => rfl

theorem timeRegexTest_not_empty {s : Str} (h : timeRegexTest s = true) :
    s.isEmpty = false := by
  cases s with
  | nil => exact absurd h (by decide)
  | cons a t => rfl

theorem checkAvailability_some_eq_count (bookings : List Booking) (rid : Nat)
    (date s e : Str) (x : Nat) :
    checkAvailability bookings rid date s e (some x) =
      decide (editConflictCount bookings rid date x s e = 0) := by
  rw [Bool.eq_iff_iff]
  simp only [checkAvailability, editConflictCount, decide_eq_true_eq,
    Bool.not_eq_true', List.any_eq_false, List.mem_filter, Bool.and_eq_true,
    List.length_eq_zero, List.filter_eq_nil_iff]
  constructor
  · intro h b hb hcond
    obtain ⟨hA, hsql⟩ := hcond
    have hjs := h b ⟨hb, hA⟩
    rw [timesOverlapJS_eq_timesConflictSQL] at hjs
    simp only [Bool.not_eq_true] at hjs
    rw [hjs] at hsql
    exact absurd hsql (by simp)
  · rintro h b ⟨hb, hA⟩
    intro hjs
    rw [timesOverlapJS_eq_timesConflictSQL] at hjs
    exact h b hb ⟨hA, hjs⟩

set_option maxHeartbeats 1000000 in
/-- C8 (amended): the edit of a pending booking validates strictly more
than direct creation — whenever the edit endpoint accepts a field set (and
the merged room id and purpose are non-falsy), the creation-side validation
of the same merged field set, with the edited booking excluded from the
availability query, accepts it too.  The claimed equivalence fails in the
other direction: creation checks only field presence and availability,
while edit additionally checks date format, date not in the past, time
format, end after start, and room existence (see the counterexample). -/
theorem c8_edit_validates_more (db : DB) (today : Str) (uid id : Nat)
    (body : EditBody) (ex : Booking)
    (hfind : db.bookings.find? (fun b => decide (b.id = id)) = some ex)
    (hroom : mergeNat body.roomId ex.room_id ≠ 0)
    (hpurp : (mergeStr body.purpose ex.purpose).isEmpty = false)
    (hok : (editBooking db today uid id body).2 = EditResult.ok) :
    createValidation db
      { roomId := mergeNat body.roomId ex.room_id,
        date := mergeStr body.date ex.date,
        startTime := mergeStr body.startTime ex.start_time,
        endTime := mergeStr body.endTime ex.end_time,
        durationMinutes := body.durationMinutes.getD ex.durationMinutes,
        purpose := mergeStr body.purpose ex.purpose,
        resources := [] } (some id) = true := by
  unfold editBooking at hok
  rw [hfind] at hok
  split at hok
  next heq => exact absurd heq (by simp)
  next existing heq =>
    obtain rfl : ex = existing := by injection heq
    split at hok
    next => exact absurd hok (by simp)
    next hown =>
      split at hok
      next => exact absurd hok (by simp)
      next hpend =>
        dsimp only at hok
        split at hok
        next => exact absurd hok (by simp)
        next hdate =>
          split at hok
          next => exact absurd hok (by simp)
          next hpast =>
            split at hok
            next => exact absurd hok (by simp)
            next hst =>
              split at hok
              next => exact absurd hok (by simp)
              next het =>
                split at hok
                next => exact absurd hok (by simp)
                next horder =>
                  split at hok
                  next => exact absurd hok (by simp)
                  next hroomex =>
                    split at hok
                    next => exact absurd hok (by simp)
                    next hconf =>
                      have hd : dateRegexTest (mergeStr body.date ex.date)
                          = true := by
                        simpa using hdate
                      have hs : timeRegexTest
                          (mergeStr body.startTime ex.start_time) = true := by
                        simpa using hst
                      have he : timeRegexTest
                          (mergeStr body.endTime ex.end_time) = true := by
                        simpa using het
                      have hcnt : editConflictCount db.bookings
                          (mergeNat body.roomId ex.room_id)
                          (mergeStr body.date ex.date) id
                          (mergeStr body.startTime ex.start_time)
                          (mergeStr body.endTime ex.end_time) = 0 := by
                        omega
                      simp [createValidation, createMissingFields, hroom,
                        dateRegexTest_not_empty hd, timeRegexTest_not_empty hs,
                        timeRegexTest_not_empty he, hpurp,
                        checkAvailability_some_eq_count, hcnt]

/-- C8 witness: a concrete pending booking edited to a valid future field
set is accepted by the edit endpoint, and the creation-side validation of
the same merged field set (excluding the booking itself) accepts it too. -/
theorem c8_witness :
    createValidation pendingDB
      { roomId := mergeNat (some 1) 1,
        date := mergeStr (some "2026-02-01".data) "2026-01-01".data,
        startTime := mergeStr (some "09:00".data) "09:00".data,
        endTime := mergeStr (some "10:00".data) "10:00".data,
        durationMinutes := (some (60 : Int)).getD 60,
        purpose := mergeStr (some "Study".data) "Study".data,
        resources := [] } (some 1) = true :=
  c8_edit_validates_more pendingDB "2025-03-10".data 1 1
    ⟨some 1, some "2026-02-01".data, some "09:00".data, some "10:00".data,
      some 60, some "Study".data⟩
    ⟨1, 1, 1, "2026-01-01".data, "09:00".data, "10:00".data, 60,
      "Study".data, .pending, none⟩
    (by decide) (by decide) (by decide) (by decide)

/-- C8 counterexample: the same field set (room 1, date 1999-01-01, 09:00
to 10:00, purpose Study) is accepted by the creation-side validation —
field presence holds and the room is free — but rejected by the edit
endpoint's past-date check, refuting the claimed accept-iff-accept
equivalence of the two validations. -/
theorem c8_counterexample :
    createValidation pendingDB
      ⟨1, "1999-01-01".data, "09:00".data, "10:00".data, 60, "Study".data, []⟩
      (some 1) = true ∧
    (editBooking pendingDB "2025-03-10".data 1 1
      ⟨some 1, some "1999-01-01".data, some "09:00".data, some "10:00".data,
        some 60, some "Study".data⟩).2 = EditResult.pastDate ∧
    EditResult.pastDate ≠ EditResult.ok := by
  exact ⟨by decide, by decide, by decide⟩

/-! ## Cascade infrastructure for C2, C3 and C6 -/

/-- bookings table right after the subject's status write on approval. -/
def approvedRows (db : DB) (id : Nat) : List Booking :=
  db.bookings.map fun b =>
    if b.id = id then { b with status := BStatus.approved } else b

/-- conflict set the approval override computes, read on the store whose
subject row was already flipped to approved. -/
def approveTargets (db : DB) (id : Nat) (b0 : Booking) : List Booking :=
  cascadeTargets { db with bookings := approvedRows db id }
    { b0 with status := BStatus.approved }

/-- happy path of the approval branch of PUT /api/bookings/:id/status. -/
def approveCascade (db : DB) (adminName : Str) (emailOk : Nat → Bool)
    (id : Nat) (b0 : Booking) : DB × List Displaced × UpdCode :=
  ({ db with bookings := ((approvedRows db id).map
      (cascadeApply (approveTargets db id b0)
        (rejectionMessage adminName b0.purpose b0.date b0.start_time
          b0.end_time))) },
   cascadeDisplaced db emailOk (approveTargets db id b0), .done)

theorem updateStatus_approved_eq (db : DB) (adminName : Str)
    (emailOk : Nat → Bool) (id : Nat) (reason : Option Str) (b0 : Booking)
    (u : User) (r : Room)
    (hfind : db.bookings.find? (fun b => decide (b.id = id)) = some b0)
    (hu : db.users.find? (fun v => decide (v.id = b0.user_id)) = some u)
    (hr : db.rooms.find? (fun v => decide (v.id = b0.room_id)) = some r) :
    updateStatus db adminName emailOk id .approved reason =
      approveCascade db adminName emailOk id b0 := by
  simp only [updateStatus, approveCascade, approvedRows, approveTargets,
    applyStatus, hfind, hu, hr]
  rfl

theorem dbWF_booking {db : DB} {b : Booking} (hwf : dbWF db = true)
    (hb : b ∈ db.bookings) :
    (db.users.find? fun u => decide (u.id = b.user_id)).isSome = true ∧
    (db.rooms.find? fun r => decide (r.id = b.room_id)).isSome = true ∧
    (timeVal b.start_time).isSome = true ∧
    (timeVal b.end_time).isSome = true := by
  unfold dbWF at hwf
  rw [Bool.and_eq_true] at hwf
  obtain ⟨-, hall⟩ := hwf
  rw [List.all_eq_true] at hall
  have := hall b hb
  simp only [Bool.and_eq_true] at this
  tauto

theorem dbWF_nodup {db : DB} (hwf : dbWF db = true) :
    (db.bookings.map Booking.id).Nodup := by
  unfold dbWF at hwf
  rw [Bool.and_eq_true] at hwf
  exact of_decide_eq_true hwf.1

theorem conflictCond_eq_sql {db : DB} (hwf : dbWF db = true) {b0 t : Booking}
    (hb0 : b0 ∈ db.bookings) (ht : t ∈ db.bookings) :
    conflictCond b0 t =
      (decide (t.room_id = b0.room_id) && decide (t.date = b0.date) &&
        decide (t.status = BStatus.approved) && decide (t.id ≠ b0.id) &&
        timesConflictSQL t.start_time t.end_time b0.start_time b0.end_time) := by
  obtain ⟨-, -, hs0, he0⟩ := dbWF_booking hwf hb0
  obtain ⟨-, -, hst, het⟩ := dbWF_booking hwf ht
  obtain ⟨s1, hs1⟩ := Option.isSome_iff_exists.mp hs0
  obtain ⟨e1, he1⟩ := Option.isSome_iff_exists.mp he0
  obtain ⟨s2, hs2⟩ := Option.isSome_iff_exists.mp hst
  obtain ⟨e2, he2⟩ := Option.isSome_iff_exists.mp het
  simp only [conflictCond, timesConflictSQL, hs1, he1, hs2, he2,
    sqlConflict_eq_overlapSpec]

theorem mem_approveTargets_iff {db : DB} {id : Nat} {b0 : Booking}
    (hwf : dbWF db = true)
    (hfind : db.bookings.find? (fun b => decide (b.id = id)) = some b0)
    (t : Booking) :
    t ∈ approveTargets db id b0 ↔ t ∈ db.bookings ∧ conflictCond b0 t = true := by
  have hb0mem : b0 ∈ db.bookings := List.mem_of_find?_eq_some hfind
  have hb0id : b0.id = id := by
    have := List.find?_some hfind
    simpa using this
  rw [approveTargets, cascadeTargets, List.mem_filter]
  constructor
  · rintro ⟨hmem, hcond⟩
    simp only [Bool.and_eq_true] at hcond
    obtain ⟨⟨⟨⟨⟨⟨hA, hB⟩, hC⟩, hD⟩, hE⟩, hF⟩, hG⟩ := hcond
    have hne : t.id ≠ b0.id := by simpa using of_decide_eq_true hD
    simp only [approvedRows, List.mem_map] at hmem
    obtain ⟨a, ha, hga⟩ := hmem
    have haid : a.id ≠ id := by
      intro h
      rw [if_pos h] at hga
      apply hne
      rw [← hga]
      simpa [hb0id] using h
    rw [if_neg haid] at hga
    subst hga
    refine ⟨ha, ?_⟩
    rw [conflictCond_eq_sql hwf hb0mem ha]
    simp only [Bool.and_eq_true]
    exact ⟨⟨⟨⟨hA, hB⟩, hC⟩, hD⟩, hE⟩
  · rintro ⟨ht, hcc⟩
    obtain ⟨husr, hrooms, -, -⟩ := dbWF_booking hwf ht
    rw [conflictCond_eq_sql hwf hb0mem ht] at hcc
    simp only [Bool.and_eq_true] at hcc
    obtain ⟨⟨⟨⟨hA, hB⟩, hC⟩, hD⟩, hE⟩ := hcc
    have hne : t.id ≠ b0.id := by simpa using of_decide_eq_true hD
    refine ⟨?_, ?_⟩
    · simp only [approvedRows, List.mem_map]
      exact ⟨t, ht, by rw [if_neg fun h => hne (by simpa [hb0id] using h)]⟩
    · simp only [Bool.and_eq_true]
      exact ⟨⟨⟨⟨⟨⟨hA, hB⟩, hC⟩, hD⟩, hE⟩, husr⟩, hrooms⟩

theorem conflictCond_id_ne {b0 t : Booking} (h : conflictCond b0 t = true) :
    t.id ≠ b0.id := by
  unfold conflictCond at h
  simp only [Bool.and_eq_true] at h
  simpa using of_decide_eq_true h.1.2

theorem approveCascade_row {db : DB} {id : Nat} {b0 : Booking}
    (hwf : dbWF db = true)
    (hfind : db.bookings.find? (fun b => decide (b.id = id)) = some b0)
    (adminName : Str) (emailOk : Nat → Bool)
    (i : Nat) (h1 : i < db.bookings.length)
    (h2 : i < (approveCascade db adminName emailOk id b0).1.bookings.length) :
    (db.bookings[i].id = id →
      (approveCascade db adminName emailOk id b0).1.bookings[i] =
        { db.bookings[i] with status := BStatus.approved }) ∧
    (conflictCond b0 db.bookings[i] = true →
      (approveCascade db adminName emailOk id b0).1.bookings[i] =
        { db.bookings[i] with
            status := BStatus.rejected
            rejection_reason := some (rejectionMessage adminName b0.purpose
              b0.date b0.start_time b0.end_time) }) ∧
    (db.bookings[i].id ≠ id → conflictCond b0 db.bookings[i] = false →
      (approveCascade db adminName emailOk id b0).1.bookings[i] =
        db.bookings[i]) := by
  have hb0id : b0.id = id := by simpa using List.find?_some hfind
  have hmemi : db.bookings[i] ∈ db.bookings := db.bookings.getElem_mem h1
  have hrow : (approveCascade db adminName emailOk id b0).1.bookings[i] =
      cascadeApply (approveTargets db id b0)
        (rejectionMessage adminName b0.purpose b0.date b0.start_time b0.end_time)
        (if db.bookings[i].id = id
          then { db.bookings[i] with status := BStatus.approved }
          else db.bookings[i]) := by
    simp only [approveCascade]
    rw [List.getElem_map]
    simp only [approvedRows]
    rw [List.getElem_map]
  refine ⟨?_, ?_, ?_⟩
  · intro hid
    rw [hrow, if_pos hid, cascadeApply, if_neg]
    simp only [List.any_eq_true, not_exists]
    rintro t ⟨htmem, htid⟩
    obtain ⟨-, hcc⟩ := (mem_approveTargets_iff hwf hfind t).1 htmem
    apply conflictCond_id_ne hcc
    have : t.id = db.bookings[i].id := by simpa using htid
    rw [this, hid, hb0id]
  · intro hcc
    rw [hrow, if_neg fun h => conflictCond_id_ne hcc (h.trans hb0id.symm),
      cascadeApply, if_pos]
    rw [List.any_eq_true]
    exact ⟨db.bookings[i], (mem_approveTargets_iff hwf hfind _).2 ⟨hmemi, hcc⟩,
      by simp⟩
  · intro hid hcc
    rw [hrow, if_neg hid, cascadeApply, if_neg]
    simp only [List.any_eq_true, not_exists]
    rintro t ⟨htmem, htid⟩
    obtain ⟨htdb, hcct⟩ := (mem_approveTargets_iff hwf hfind t).1 htmem
    have hteq : t = db.bookings[i] :=
      List.inj_on_of_nodup_map (dbWF_nodup hwf) htdb hmemi (by simpa using htid)
    rw [hteq, hcc] at hcct
    exact absurd hcct (by simp)

theorem cascadeDisplaced_mem_iff (db : DB) (emailOk : Nat → Bool)
    (targets : List Booking) (d : Displaced) :
    d ∈ cascadeDisplaced db emailOk targets ↔
      ∃ t ∈ targets, ∃ u,
        db.users.find? (fun v => decide (v.id = t.user_id)) = some u ∧
        u.email.isSome = true ∧ emailOk t.id = true ∧
        d = ⟨t.id, u.name,
          ((db.rooms.find? fun r => decide (r.id = t.room_id)).map
            Room.name).getD []⟩ := by
  unfold cascadeDisplaced
  rw [List.mem_filterMap]
  constructor
  · rintro ⟨t, ht, hf⟩
    split at hf
    next u hu =>
      split at hf
      next e he =>
        split at hf
        next hok =>
          exact ⟨t, ht, u, hu, by simp [he], hok,
            (Option.some_injective _ hf).symm⟩
        next => exact absurd hf (by simp)
      next he => exact absurd hf (by simp)
    next => exact absurd hf (by simp)
  · rintro ⟨t, ht, u, hu, hemail, hok, rfl⟩
    refine ⟨t, ht, ?_⟩
    rw [hu]
    obtain ⟨e, he⟩ := Option.isSome_iff_exists.mp hemail
    simp [he, hok]

theorem updateStatus_email_independent (db : DB) (adminName : Str)
    (e1 e2 : Nat → Bool) (id : Nat) (ns : BStatus) (reason : Option Str) :
    (updateStatus db adminName e1 id ns reason).1 =
      (updateStatus db adminName e2 id ns reason).1 ∧
    (updateStatus db adminName e1 id ns reason).2.2 =
      (updateStatus db adminName e2 id ns reason).2.2 := by
  by_cases hns : ns = BStatus.pending
  · simp [updateStatus, hns]
  · cases hf : db.bookings.find? fun b => decide (b.id = id) with
    | none => simp [updateStatus, hns, hf]
    | some b0 =>
      cases hu : db.users.find?
          fun u => decide (u.id = (applyStatus ns reason b0).user_id) with
      | none => simp [updateStatus, hns, hf, hu]
      | some u =>
        cases hr : db.rooms.find?
            fun r => decide (r.id = (applyStatus ns reason b0).room_id) with
        | none => simp [updateStatus, hns, hf, hu, hr]
        | some r =>
          by_cases hap : ns = BStatus.approved
          · subst hap
            simp [updateStatus, hns, hf, hu, hr]
          · simp [updateStatus, hns, hf, hu, hr, hap]

theorem cascadeApply_id (T : List Booking) (m : Str) (b : Booking) :
    (cascadeApply T m b).id = b.id := by
  unfold cascadeApply
  split <;> rfl

theorem cascadeTargets_id_ne {db1 : DB} {subj t : Booking}
    (ht : t ∈ cascadeTargets db1 subj) : t.id ≠ subj.id := by
  rw [cascadeTargets, List.mem_filter] at ht
  simp only [Bool.and_eq_true] at ht
  simpa using of_decide_eq_true ht.2.1.1.1.2

theorem approvedRows_id_status {db : DB} {id : Nat} (b' : Booking)
    (hb' : b' ∈ approvedRows db id) (hid : b'.id = id) :
    b'.status = BStatus.approved := by
  simp only [approvedRows, List.mem_map] at hb'
  obtain ⟨c, hc, rfl⟩ := hb'
  by_cases h : c.id = id
  · rw [if_pos h]
  · rw [if_neg h] at hid ⊢
    exact absurd hid h

theorem approveCascade_id_status {db : DB} {id : Nat} {b0 : Booking}
    (hb0id : b0.id = id) (adminName : Str) (emailOk : Nat → Bool) (b' : Booking)
    (hb' : b' ∈ (approveCascade db adminName emailOk id b0).1.bookings)
    (hid : b'.id = id) : b'.status = BStatus.approved := by
  simp only [approveCascade, List.mem_map] at hb'
  obtain ⟨a, ha, rfl⟩ := hb'
  rw [cascadeApply_id] at hid
  have hsa : a.status = BStatus.approved := approvedRows_id_status a ha hid
  unfold cascadeApply
  rw [if_neg]
  · exact hsa
  · simp only [List.any_eq_true, not_exists]
    rintro t ⟨htmem, htid⟩
    apply cascadeTargets_id_ne htmem
    have hta : t.id = a.id := by simpa using htid
    show t.id = Booking.id { b0 with status := BStatus.approved }
    rw [hta, hid]
    exact hb0id.symm

theorem updateStatus_approved_nojoin_eq (db : DB) (adminName : Str)
    (emailOk : Nat → Bool) (id : Nat) (reason : Option Str) (b0 : Booking)
    (hfind : db.bookings.find? (fun b => decide (b.id = id)) = some b0)
    (h : db.users.find? (fun v => decide (v.id = b0.user_id)) = none ∨
      db.rooms.find? (fun v => decide (v.id = b0.room_id)) = none) :
    updateStatus db adminName emailOk id .approved reason =
      ({ db with bookings := approvedRows db id }, [], .notFound) := by
  rcases h with h | h
  · simp only [updateStatus, applyStatus, approvedRows, hfind, h]
    rw [if_neg (by simp)]
  · cases hus : db.users.find? fun v => decide (v.id = b0.user_id) with
    | none =>
      simp only [updateStatus, applyStatus, approvedRows, hfind, hus]
      rw [if_neg (by simp)]
    | some u =>
      simp only [updateStatus, applyStatus, approvedRows, hfind, hus, h]
      rw [if_neg (by simp)]

/-- store like `noEmailDB` but where the displaced requester has an e-mail
address, so the cascade reports the displaced booking. -/
def withEmailDB : DB :=
  { users := [⟨1, "Alice".data, some "alice@example.com".data⟩,
              ⟨2, "Bob".data, some "bob@example.com".data⟩],
    rooms := [⟨1, "Conference Room A".data⟩],
    bookings := [⟨1, 1, 1, "2025-03-10".data, "09:30".data, "10:30".data, 60,
      "Workshop".data, .pending, none⟩,
      ⟨2, 2, 1, "2025-03-10".data, "09:00".data, "10:00".data, 60,
        "Review".data, .approved, none⟩],
    resources := [],
    booking_resources := [] }

/-! ## C2 -/

/-- C2 (amended): for a subject approved through the direct admin status
update on a well-formed store, exactly the approved bookings of the same
room and date whose windows overlap the subject's (per section 4.1) are set
to rejected with the generated non-null rejection reason, the subject's row
becomes approved, and every other row is unchanged.  For the bulk-resolve
override branch the rejected set is the id list supplied by the client
request — exactly the rows whose id appears in `existing_bookings` are
rejected with a non-null reason and all other pre-existing rows are
unchanged; the overlap set is NOT recomputed against the store there (see
the counterexample). -/
theorem c2_cascade_completeness_frame :
    (∀ (db : DB) (adminName : Str) (emailOk : Nat → Bool) (id : Nat)
        (reason : Option Str) (b0 : Booking),
      dbWF db = true →
      db.bookings.find? (fun b => decide (b.id = id)) = some b0 →
      (updateStatus db adminName emailOk id .approved reason).2.2 =
        UpdCode.done ∧
      (updateStatus db adminName emailOk id .approved reason).1.bookings.length
        = db.bookings.length ∧
      ∀ (i : Nat) (h1 : i < db.bookings.length)
        (h2 : i <
          (updateStatus db adminName emailOk id .approved reason).1.bookings.length),
        (db.bookings[i].id = id →
          (updateStatus db adminName emailOk id .approved reason).1.bookings[i] =
            { db.bookings[i] with status := BStatus.approved }) ∧
        (conflictCond b0 db.bookings[i] = true →
          (updateStatus db adminName emailOk id .approved reason).1.bookings[i] =
            { db.bookings[i] with
                status := BStatus.rejected
                rejection_reason := some (rejectionMessage adminName b0.purpose
                  b0.date b0.start_time b0.end_time) }) ∧
        (db.bookings[i].id ≠ id → conflictCond b0 db.bookings[i] = false →
          (updateStatus db adminName emailOk id .approved reason).1.bookings[i]
            = db.bookings[i])) ∧
    (∀ (db : DB) (adminId : Nat) (adminName : Str) (emailOk : Nat → Bool)
        (newId : Nat) (rb : ResolveBooking) (existingIds : List Nat),
      (resolveOverride db adminId adminName emailOk newId rb
        existingIds).1.bookings.length = db.bookings.length + 1 ∧
      ∀ (i : Nat) (h1 : i < db.bookings.length)
        (h2 : i < (resolveOverride db adminId adminName emailOk newId rb
          existingIds).1.bookings.length),
        (existingIds.contains db.bookings[i].id = true →
          (resolveOverride db adminId adminName emailOk newId rb
            existingIds).1.bookings[i] =
            { db.bookings[i] with
                status := BStatus.rejected
                rejection_reason := some (rejectionMessage adminName rb.purpose
                  rb.date rb.start_time rb.end_time) }) ∧
        (existingIds.contains db.bookings[i].id = false →
          (resolveOverride db adminId adminName emailOk newId rb
            existingIds).1.bookings[i] = db.bookings[i])) := by
  constructor
  · intro db adminName emailOk id reason b0 hwf hfind
    obtain ⟨hus, hrs, -, -⟩ :=
      dbWF_booking hwf (List.mem_of_find?_eq_some hfind)
    obtain ⟨u, hu⟩ := Option.isSome_iff_exists.mp hus
    obtain ⟨r, hr⟩ := Option.isSome_iff_exists.mp hrs
    rw [updateStatus_approved_eq db adminName emailOk id reason b0 u r
      hfind hu hr]
    refine ⟨rfl, by simp [approveCascade, approvedRows], ?_⟩
    intro i h1 h2
    exact approveCascade_row hwf hfind adminName emailOk i h1 h2
  · intro db adminId adminName emailOk newId rb existingIds
    constructor
    · simp [resolveOverride]
    · intro i h1 h2
      have hrow : (resolveOverride db adminId adminName emailOk newId rb
          existingIds).1.bookings[i] =
          (if existingIds.contains db.bookings[i].id then
            { db.bookings[i] with
                status := BStatus.rejected
                rejection_reason := some (rejectionMessage adminName rb.purpose
                  rb.date rb.start_time rb.end_time) }
          else db.bookings[i]) := by
        simp only [resolveOverride]
        rw [List.getElem_map, List.getElem_append_left]
      constructor
      · intro hc
        rw [hrow, if_pos hc]
      · intro hc
        have hnc : ¬ (existingIds.contains db.bookings[i].id = true) := by
          rw [hc]
          simp
        rw [hrow, if_neg hnc]

/-- C2 witness: approving the pending workshop booking in the two-booking
store cascades onto the overlapping approved review booking — the loop
instance reports done, preserves the table length, and row 1 (the
conflicting booking) satisfies the rejection clause. -/
theorem c2_witness :
    dbWF noEmailDB = true ∧
    ((updateStatus noEmailDB "Admin".data (fun _ => true) 1 .approved
        none).2.2 = UpdCode.done ∧
      (updateStatus noEmailDB "Admin".data (fun _ => true) 1 .approved
        none).1.bookings.length = noEmailDB.bookings.length ∧
      ∀ (i : Nat) (_h1 : i < noEmailDB.bookings.length)
        (h2 : i < (updateStatus noEmailDB "Admin".data (fun _ => true) 1
          .approved none).1.bookings.length),
        (noEmailDB.bookings[i].id = 1 →
          (updateStatus noEmailDB "Admin".data (fun _ => true) 1 .approved
            none).1.bookings[i] =
            { noEmailDB.bookings[i] with status := BStatus.approved }) ∧
        (conflictCond
            ⟨1, 1, 1, "2025-03-10".data, "09:30".data, "10:30".data, 60,
              "Workshop".data, .pending, none⟩ noEmailDB.bookings[i] = true →
          (updateStatus noEmailDB "Admin".data (fun _ => true) 1 .approved
            none).1.bookings[i] =
            { noEmailDB.bookings[i] with
                status := BStatus.rejected
                rejection_reason := some (rejectionMessage "Admin".data
                  "Workshop".data "2025-03-10".data "09:30".data
                  "10:30".data) }) ∧
        (noEmailDB.bookings[i].id ≠ 1 →
          conflictCond
            ⟨1, 1, 1, "2025-03-10".data, "09:30".data, "10:30".data, 60,
              "Workshop".data, .pending, none⟩ noEmailDB.bookings[i] = false →
          (updateStatus noEmailDB "Admin".data (fun _ => true) 1 .approved
            none).1.bookings[i] = noEmailDB.bookings[i])) :=
  ⟨by decide,
    c2_cascade_completeness_frame.1 noEmailDB "Admin".data (fun _ => true) 1
      none
      ⟨1, 1, 1, "2025-03-10".data, "09:30".data, "10:30".data, 60,
        "Workshop".data, .pending, none⟩
      (by decide) (by decide)⟩

/-- C2 counterexample: the store holds one approved booking (09:00 to
10:00) that overlaps the override candidate (09:30 to 10:30, same room and
date), yet resolving with an empty `existing_bookings` list leaves it
approved — the bulk-resolve cascade rejects only the client-supplied ids,
not the approved overlapping bookings the claim requires. -/
theorem c2_counterexample :
    ((oneBookingDB.bookings.find? fun b => decide (b.id = 1)).map
      Booking.status) = some BStatus.approved ∧
    timesConflictSQL "09:00".data "10:00".data "09:30".data "10:30".data
      = true ∧
    (((resolveOverride oneBookingDB 9 "Admin".data (fun _ => true) 100
        ⟨1, "2025-03-10".data, "09:30".data, "10:30".data, 60,
          "Override".data⟩ []).1.bookings.find? fun b =>
            decide (b.id = 1)).map Booking.status) = some BStatus.approved ∧
    (((resolveOverride oneBookingDB 9 "Admin".data (fun _ => true) 100
        ⟨1, "2025-03-10".data, "09:30".data, "10:30".data, 60,
          "Override".data⟩ []).1.bookings.find? fun b =>
            decide (b.id = 100)).map Booking.status) =
      some BStatus.approved := by
  exact ⟨by decide, by decide, by decide, by decide⟩

/-! ## C3 -/

/-- C3 (amended): a rejected booking is terminal for requester operations —
edit and delete of a rejected booking fail with the state error and leave
the store unchanged — but the admin status-update endpoint carries no
current-status guard: approving a rejected booking flips its status back to
approved (see the counterexample). -/
theorem c3_rejected_terminal :
    (∀ (db : DB) (today : Str) (uid id : Nat) (body : EditBody) (ex : Booking),
      db.bookings.find? (fun b => decide (b.id = id)) = some ex →
      ex.user_id = uid → ex.status = BStatus.rejected →
      editBooking db today uid id body = (db, EditResult.notPending)) ∧
    (∀ (db : DB) (uid id : Nat) (ex : Booking),
      db.bookings.find? (fun b => decide (b.id = id)) = some ex →
      ex.user_id = uid → ex.status = BStatus.rejected →
      deleteBooking db uid id = (db, DeleteResult.notPending)) ∧
    (∀ (db : DB) (adminName : Str) (emailOk : Nat → Bool) (id : Nat)
        (reason : Option Str) (b0 : Booking),
      db.bookings.find? (fun b => decide (b.id = id)) = some b0 →
      b0.status = BStatus.rejected →
      ∀ b' ∈ (updateStatus db adminName emailOk id .approved
        reason).1.bookings, b'.id = id → b'.status = BStatus.approved) := by
  refine ⟨?_, ?_, ?_⟩
  · intro db today uid id body ex hfind hown hstat
    unfold editBooking
    simp only [hfind]
    rw [if_neg (by simp [hown]), if_pos (by simp [hstat])]
  · intro db uid id ex hfind hown hstat
    unfold deleteBooking
    simp only [hfind]
    rw [if_neg (by simp [hown]), if_pos (by simp [hstat])]
  · intro db adminName emailOk id reason b0 hfind hrej b' hb' hid
    have hb0id : b0.id = id := by simpa using List.find?_some hfind
    cases hus : db.users.find? fun v => decide (v.id = b0.user_id) with
    | none =>
      rw [updateStatus_approved_nojoin_eq db adminName emailOk id reason b0
        hfind (Or.inl hus)] at hb'
      exact approvedRows_id_status b' hb' hid
    | some u =>
      cases hrs : db.rooms.find? fun v => decide (v.id = b0.room_id) with
      | none =>
        rw [updateStatus_approved_nojoin_eq db adminName emailOk id reason b0
          hfind (Or.inr hrs)] at hb'
        exact approvedRows_id_status b' hb' hid
      | some r =>
        rw [updateStatus_approved_eq db adminName emailOk id reason b0 u r
          hfind hus hrs] at hb'
        exact approveCascade_id_status hb0id adminName emailOk b' hb' hid

/-- C3 witness: editing and deleting the rejected booking both fail with
the state error and leave the store unchanged. -/
theorem c3_witness :
    editBooking rejectedDB "2025-03-10".data 1 1
      ⟨none, none, none, none, none, none⟩ =
      (rejectedDB, EditResult.notPending) ∧
    deleteBooking rejectedDB 1 1 = (rejectedDB, DeleteResult.notPending) :=
  ⟨c3_rejected_terminal.1 rejectedDB "2025-03-10".data 1 1
      ⟨none, none, none, none, none, none⟩
      ⟨1, 1, 1, "2025-03-10".data, "09:00".data, "10:00".data, 60,
        "Seminar".data, .rejected, some "busy".data⟩
      (by decide) (by decide) (by decide),
    c3_rejected_terminal.2.1 rejectedDB 1 1
      ⟨1, 1, 1, "2025-03-10".data, "09:00".data, "10:00".data, 60,
        "Seminar".data, .rejected, some "busy".data⟩
      (by decide) (by decide) (by decide)⟩

/-- C3 counterexample: booking 1 is rejected, yet the admin status update
to approved succeeds and its status becomes approved — a rejected booking
is not terminal under the status-update endpoint, refuting the claim. -/
theorem c3_counterexample :
    ((rejectedDB.bookings.find? fun b => decide (b.id = 1)).map
      Booking.status) = some BStatus.rejected ∧
    (((updateStatus rejectedDB "Admin".data (fun _ => true) 1 .approved
        none).1.bookings.find? fun b => decide (b.id = 1)).map
      Booking.status) = some BStatus.approved := by
  exact ⟨by decide, by decide⟩

/-! ## C6 -/

/-- C6 (amended): a notification outcome never rolls back state — the store
component of the status update is identical for any two e-mail oracles —
but a displaced booking appears in the returned displaced list exactly when
its requester's user row carries an e-mail address AND the cancellation
e-mail send succeeds; a displaced booking whose notification fails (or
whose requester has no e-mail) stays rejected yet is silently missing from
the returned list (see the counterexample), refuting the claim that every
displaced booking is reported. -/
theorem c6_displaced_reporting :
    (∀ (db : DB) (adminName : Str) (e1 e2 : Nat → Bool) (id : Nat)
        (ns : BStatus) (reason : Option Str),
      (updateStatus db adminName e1 id ns reason).1 =
        (updateStatus db adminName e2 id ns reason).1) ∧
    (∀ (db : DB) (adminName : Str) (emailOk : Nat → Bool) (id : Nat)
        (reason : Option Str) (b0 : Booking),
      dbWF db = true →
      db.bookings.find? (fun b => decide (b.id = id)) = some b0 →
      ∀ d, d ∈ (updateStatus db adminName emailOk id .approved
          reason).2.1 ↔
        ∃ b ∈ db.bookings, conflictCond b0 b = true ∧
          ∃ u, db.users.find? (fun v => decide (v.id = b.user_id)) = some u ∧
            u.email.isSome = true ∧ emailOk b.id = true ∧
            d = ⟨b.id, u.name,
              ((db.rooms.find? fun r => decide (r.id = b.room_id)).map
                Room.name).getD []⟩) := by
  constructor
  · intro db adminName e1 e2 id ns reason
    exact (updateStatus_email_independent db adminName e1 e2 id ns reason).1
  · intro db adminName emailOk id reason b0 hwf hfind d
    obtain ⟨hus, hrs, -, -⟩ :=
      dbWF_booking hwf (List.mem_of_find?_eq_some hfind)
    obtain ⟨u, hu⟩ := Option.isSome_iff_exists.mp hus
    obtain ⟨r, hr⟩ := Option.isSome_iff_exists.mp hrs
    rw [updateStatus_approved_eq db adminName emailOk id reason b0 u r
      hfind hu hr]
    show d ∈ cascadeDisplaced db emailOk (approveTargets db id b0) ↔ _
    rw [cascadeDisplaced_mem_iff]
    constructor
    · rintro ⟨t, ht, u', hu', hemail, hok, rfl⟩
      obtain ⟨htdb, hcc⟩ := (mem_approveTargets_iff hwf hfind t).1 ht
      exact ⟨t, htdb, hcc, u', hu', hemail, hok, rfl⟩
    · rintro ⟨b, hb, hcc, u', hu', hemail, hok, rfl⟩
      exact ⟨b, (mem_approveTargets_iff hwf hfind b).2 ⟨hb, hcc⟩, u', hu',
        hemail, hok, rfl⟩

/-- C6 witness: in the store where the displaced requester has an e-mail
and the send succeeds, the displaced review booking is reported — the
characterization instance holds at the concrete displaced entry. -/
theorem c6_witness :
    dbWF withEmailDB = true ∧
    ((⟨2, "Bob".data, "Conference Room A".data⟩ : Displaced) ∈
        (updateStatus withEmailDB "Admin".data (fun _ => true) 1 .approved
          none).2.1 ↔
      ∃ b ∈ withEmailDB.bookings,
        conflictCond
          ⟨1, 1, 1, "2025-03-10".data, "09:30".data, "10:30".data, 60,
            "Workshop".data, .pending, none⟩ b = true ∧
        ∃ u, withEmailDB.users.find? (fun v => decide (v.id = b.user_id))
            = some u ∧
          u.email.isSome = true ∧ (fun _ => true) b.id = true ∧
          (⟨2, "Bob".data, "Conference Room A".data⟩ : Displaced) =
            ⟨b.id, u.name,
              ((withEmailDB.rooms.find? fun r => decide (r.id = b.room_id)).map
                Room.name).getD []⟩) :=
  ⟨by decide,
    c6_displaced_reporting.2 withEmailDB "Admin".data (fun _ => true) 1 none
      ⟨1, 1, 1, "2025-03-10".data, "09:30".data, "10:30".data, 60,
        "Workshop".data, .pending, none⟩
      (by decide) (by decide)
      ⟨2, "Bob".data, "Conference Room A".data⟩⟩

/-- C6 counterexample: approving the workshop booking displaces the
overlapping review booking whose requester has no e-mail address — the
booking is rejected with a non-null reason (no rollback), yet the returned
displaced list is empty, so the displaced booking is not reported to the
caller as the claim requires. -/
theorem c6_counterexample :
    (((updateStatus noEmailDB "Admin".data (fun _ => true) 1 .approved
        none).1.bookings.find? fun b => decide (b.id = 2)).map
      Booking.status) = some BStatus.rejected ∧
    (((updateStatus noEmailDB "Admin".data (fun _ => true) 1 .approved
        none).1.bookings.find? fun b => decide (b.id = 2)).map
      (fun b => b.rejection_reason.isSome)) = some true ∧
    (updateStatus noEmailDB "Admin".data (fun _ => true) 1 .approved
      none).2.1 = [] := by
  exact ⟨by decide, by decide, by decide⟩

/-! ## Model evaluation checks

Concrete evaluations of the embedded operations on the fixture stores,
matching the concrete scenarios of spec section 8. -/

theorem scenario_room_availability :
    checkAvailability oneBookingDB.bookings 1 "2025-03-10".data
      "09:30".data "10:30".data none = false ∧
    checkAvailability oneBookingDB.bookings 1 "2025-03-10".data
      "10:00".data "11:00".data none = true ∧
    checkAvailability oneBookingDB.bookings 1 "2025-03-10".data
      "08:00".data "09:00".data none = true := by
  exact ⟨by decide, by decide, by decide⟩

theorem scenario_bulk_summary :
    (bulkImport "2025-03-10".data 1 oneBookingDB 100
      [⟨" conference room A ".data, "2025-03-12".data, "9:00".data,
        "10:00".data, "X".data⟩,
       ⟨"Nowhere".data, "2025-03-12".data, "09:00".data, "10:00".data,
        "Y".data⟩,
       ⟨"Conference Room A".data, "2025-03-12".data, "10:00".data,
        "11:00".data, "Z".data⟩]).2.summary = ⟨3, 2, 0, 1⟩ := by
  decide

theorem scenario_visible_listing :
    visibleBookings noEmailDB 1 =
      [fullEntry ⟨1, 1, 1, "2025-03-10".data, "09:30".data, "10:30".data, 60,
          "Workshop".data, .pending, none⟩
        ⟨1, "Alice".data, some "alice@example.com".data⟩
        ⟨1, "Conference Room A".data⟩,
       maskedEntry ⟨2, 2, 1, "2025-03-10".data, "09:00".data, "10:00".data,
          60, "Review".data, .approved, none⟩
        ⟨1, "Conference Room A".data⟩] := by
  decide

theorem wellformed_fixtures :
    dbWF oneBookingDB = true ∧ dbWF rejectedDB = true ∧
    dbWF noEmailDB = true ∧ dbWF withEmailDB = true ∧
    dbWF pendingDB = true ∧ dbWF resourceDB = true := by
  exact ⟨by decide, by decide, by decide, by decide, by decide, by decide⟩

end QRB
